import Mathlib

/-
Verification of the Lighter exchange-connector core (hummingbot fork).

Shallow embedding of the connector code paths under
hummingbot/connector/exchange/lighter/ and
hummingbot/connector/derivative/lighter_perpetual/:

- lighter_auth.py: the nonce manager, the auth-token cache, REST and
  WebSocket authentication, and the POST-body signing dispatch.
- lighter_api_user_stream_data_source.py and
  lighter_api_order_book_data_source.py: the WebSocket connect loop with
  rate-limit backoff and the channel-subscription loop.
- lighter_perpetual_derivative.py: the inbound order-update processor.

Python floats that only hold whole-second durations and counters are
modelled as Int or Nat (the operations used on them - addition,
comparison, doubling, min - are exact at these values).  External SDK
calls (the Lighter SignerClient) are modelled as distinguishable
envelope constructors carrying exactly the data the code hands them.
-/

namespace Lighter

/-! ### Python string helpers

The connector classifies errors and dispatches URLs with the Python
substring test (needle in hay) after lowercasing.  We model strings at
the character-list level.  Char.toLower agrees with the Python
lowercasing on the ASCII marker strings used by the code. -/

/-- Lowercase a string character by character, as str.lower does on ASCII. -/
def pyLower (s : String) : String :=
  ⟨s.data.map Char.toLower⟩

/-- Containment of a needle in a haystack, all character lists. -/
def containsSub (hay needle : List Char) : Bool :=
  match hay with
  | [] => needle.isEmpty
  | _ :: t => needle.isPrefixOf hay || containsSub t needle

/-- The Python expression needle in hay for strings. -/
def pyIn (needle hay : String) : Bool :=
  containsSub hay.data needle.data

/-- If a needle extends another by a suffix, any haystack containing the
longer one contains the shorter one. -/
theorem containsSub_of_isPrefixOf (hay n1 n2 : List Char)
    (hpre : n1.isPrefixOf n2 = true) (h : containsSub hay n2 = true) :
    containsSub hay n1 = true := by
  induction hay with
  | nil =>
    simp only [containsSub, List.isEmpty_iff] at h ⊢
    subst h
    simpa [List.isPrefixOf_iff_prefix, List.prefix_nil] using hpre
  | cons c t ih =>
    simp only [containsSub, Bool.or_eq_true] at h ⊢
    rcases h with h | h
    · left
      rw [List.isPrefixOf_iff_prefix] at hpre h ⊢
      exact hpre.trans h
    · right
      exact ih h

/-! ### The nonce manager

_NonceManager in lighter_auth.py: a counter starting at 0; next
increments and returns it; set raises it to a larger value only.  The
Python int is modelled as Int. -/

/-- Initial value of the counter field last of _NonceManager. -/
def NonceManager.initLast : Int := 0

/-- _NonceManager.next: increment the counter and return it.
First component is the returned nonce, second the new counter. -/
def NonceManager.next (last : Int) : Int × Int :=
  (last + 1, last + 1)

/-- _NonceManager.set: raise the counter to value only if it is greater. -/
def NonceManager.set (last value : Int) : Int :=
  if value > last then value else last

/-- N successive next calls: the list of returned nonces and the final counter. -/
def NonceManager.nextN (last : Int) : Nat → List Int × Int
  | 0 => ([], last)
  | n + 1 =>
    let r := NonceManager.next last
    let rest := NonceManager.nextN r.2 n
    (r.1 :: rest.1, rest.2)

/-- The counter after N next calls is the start plus N. -/
theorem NonceManager.nextN_snd (N : Nat) (k : Int) :
    (NonceManager.nextN k N).2 = k + N := by
  induction N generalizing k with
  | zero => simp [NonceManager.nextN]
  | succ n ih =>
    simp only [NonceManager.nextN, NonceManager.next, ih]
    push_cast
    ring

/-- The nonces returned by N next calls from counter k are exactly the
integers in the interval from k+1 to k+N. -/
theorem NonceManager.mem_nextN (N : Nat) (k a : Int) :
    a ∈ (NonceManager.nextN k N).1 ↔ k + 1 ≤ a ∧ a ≤ k + N := by
  induction N generalizing k with
  | zero =>
    simp only [NonceManager.nextN, List.not_mem_nil, false_iff]
    push_cast
    omega
  | succ n ih =>
    simp only [NonceManager.nextN, NonceManager.next, List.mem_cons, ih]
    push_cast
    omega

/-- The nonces returned by N next calls carry no repeats. -/
theorem NonceManager.nextN_nodup (N : Nat) (k : Int) :
    ((NonceManager.nextN k N).1).Nodup := by
  induction N generalizing k with
  | zero => simp [NonceManager.nextN]
  | succ n ih =>
    simp only [NonceManager.nextN, NonceManager.next, List.nodup_cons]
    refine ⟨?_, ih (k + 1)⟩
    rw [NonceManager.mem_nextN]
    omega

/-- N next calls return a list of N nonces. -/
theorem NonceManager.nextN_length (N : Nat) (k : Int) :
    ((NonceManager.nextN k N).1).length = N := by
  induction N generalizing k with
  | zero => simp [NonceManager.nextN]
  | succ n ih => simp [NonceManager.nextN, ih]

/-- Claim C1: next returns one more than the previous return (the new
counter equals the returned value), the counter starts at 0 so the first
call returns 1, and N successive calls starting from counter value k
return exactly the set of values k+1, ..., k+N (N values, no repeats),
leaving the counter at k+N. -/
theorem claim_C1_nonce_next_sequence :
    (NonceManager.next NonceManager.initLast).1 = 1
    ∧ (∀ c : Int, NonceManager.next c = (c + 1, c + 1))
    ∧ (∀ (k : Int) (N : Nat),
        (∀ a : Int, a ∈ (NonceManager.nextN k N).1 ↔ k + 1 ≤ a ∧ a ≤ k + N)
        ∧ ((NonceManager.nextN k N).1).length = N
        ∧ ((NonceManager.nextN k N).1).Nodup
        ∧ (NonceManager.nextN k N).2 = k + N) :=
  ⟨rfl, fun _ => rfl, fun k N =>
    ⟨fun a => NonceManager.mem_nextN N k a, NonceManager.nextN_length N k,
     NonceManager.nextN_nodup N k, NonceManager.nextN_snd N k⟩⟩

/-- Claim C2: set is a floor-advance - it raises the counter to v exactly
when v exceeds the current counter and leaves it unchanged otherwise;
hence set then next returns v+1 when v is greater and c+1 when it is not. -/
theorem claim_C2_nonce_set_floor_advance :
    ∀ c v : Int,
      NonceManager.set c v = (if c < v then v else c)
      ∧ (NonceManager.next (NonceManager.set c v)).1
          = (if c < v then v + 1 else c + 1) := by
  intro c v
  unfold NonceManager.set NonceManager.next
  constructor
  · rfl
  · by_cases h : c < v <;> simp [h]

/-! ### The WebSocket connect loop with rate-limit backoff

_connected_websocket_assistant in lighter_api_user_stream_data_source.py
and lighter_api_order_book_data_source.py share the same loop: try to
connect; on success reset the stored backoff to INITIAL_BACKOFF and
return; on a failure whose lowercased text contains one of the
rate-limit markers, sleep for the current backoff, multiply it by
BACKOFF_MULTIPLIER capping at MAX_BACKOFF, and retry (the user-stream
variant additionally refreshes the auth token before retrying, which
does not affect the waits or the backoff state); on any other failure,
re-raise.  Backoff values are the floats 1.0 / 60.0 / 2.0 from
lighter_constants.py, exact as naturals. -/

/-- INITIAL_BACKOFF from lighter_constants.py (1.0 seconds). -/
def INITIAL_BACKOFF : Nat := 1

/-- MAX_BACKOFF from lighter_constants.py (60.0 seconds). -/
def MAX_BACKOFF : Nat := 60

/-- BACKOFF_MULTIPLIER from lighter_constants.py (2.0). -/
def BACKOFF_MULTIPLIER : Nat := 2

/-- The rate-limit classification of a connect failure: the lowercased
error text contains 429, too many, or rate limit. -/
def isRateLimitError (errorText : String) : Bool :=
  pyIn "429" (pyLower errorText)
    || pyIn "too many" (pyLower errorText)
    || pyIn "rate limit" (pyLower errorText)

/-- One scripted outcome of an attempted transport connect. -/
inductive Attempt where
  | success
  | failure (msg : String)
deriving DecidableEq

/-- Result of running the connect loop against a script of attempt
outcomes: connected (with the sleeps performed, in seconds, and the
stored backoff after the reset), an immediately re-raised error, or the
script ran out while the loop was still retrying. -/
inductive ConnectOutcome where
  | connected (waits : List Nat) (backoff : Nat)
  | raised (msg : String) (waits : List Nat) (backoff : Nat)
  | stillRetrying (waits : List Nat) (backoff : Nat)
deriving DecidableEq

/-- The connect loop of _connected_websocket_assistant, with the current
stored backoff as explicit state, run against a script of outcomes. -/
def connectLoop (backoff : Nat) : List Attempt → ConnectOutcome
  | [] => ConnectOutcome.stillRetrying [] backoff
  | Attempt.success :: _ => ConnectOutcome.connected [] INITIAL_BACKOFF
  | Attempt.failure msg :: rest =>
    if isRateLimitError msg then
      match connectLoop (min (backoff * BACKOFF_MULTIPLIER) MAX_BACKOFF) rest with
      | ConnectOutcome.connected ws b => ConnectOutcome.connected (backoff :: ws) b
      | ConnectOutcome.raised m ws b => ConnectOutcome.raised m (backoff :: ws) b
      | ConnectOutcome.stillRetrying ws b => ConnectOutcome.stillRetrying (backoff :: ws) b
    else
      ConnectOutcome.raised msg [] backoff

/-- Claim C3: from the initial 1-second backoff, three consecutive
rate-limited connect failures produce waits of exactly 1, 2 and 4
seconds (each sleep uses the backoff before the multiplication); every
successful connect resets the stored backoff to the initial value; and
the multiplied backoff is always capped at MAX_BACKOFF. -/
theorem claim_C3_backoff_growth_and_reset :
    ∀ m1 m2 m3 : String,
      isRateLimitError m1 = true →
      isRateLimitError m2 = true →
      isRateLimitError m3 = true →
      (∀ rest : List Attempt,
        connectLoop INITIAL_BACKOFF
            (Attempt.failure m1 :: Attempt.failure m2 :: Attempt.failure m3
              :: Attempt.success :: rest)
          = ConnectOutcome.connected [1, 2, 4] INITIAL_BACKOFF)
      ∧ (∀ (b : Nat) (rest : List Attempt),
          connectLoop b (Attempt.success :: rest)
            = ConnectOutcome.connected [] INITIAL_BACKOFF)
      ∧ (∀ b : Nat, min (b * BACKOFF_MULTIPLIER) MAX_BACKOFF ≤ MAX_BACKOFF) := by
  intro m1 m2 m3 h1 h2 h3
  refine ⟨fun rest => ?_, fun b rest => rfl, fun b => Nat.min_le_right _ _⟩
  simp [connectLoop, h1, h2, h3, INITIAL_BACKOFF, BACKOFF_MULTIPLIER, MAX_BACKOFF]

/-- Witness for claim C3 at concrete rate-limited error messages. -/
theorem claim_C3_backoff_growth_and_reset_witness :
    connectLoop INITIAL_BACKOFF
        (Attempt.failure "HTTP 429" :: Attempt.failure "Too Many Requests"
          :: Attempt.failure "rate limit exceeded" :: Attempt.success :: [])
      = ConnectOutcome.connected [1, 2, 4] INITIAL_BACKOFF :=
  (claim_C3_backoff_growth_and_reset "HTTP 429" "Too Many Requests"
      "rate limit exceeded" (by decide) (by decide) (by decide)).1 []

/-- Claim C4: a connect failure whose lowercased text contains none of
the markers 429, too many, rate limit is re-raised immediately - no
sleep is performed and no further attempt is consumed - while
rate-limited failures are retried without any retry-count ceiling: any
number of them followed by a success still ends in a connected outcome. -/
theorem claim_C4_non_rate_limit_reraise :
    (∀ (b : Nat) (msg : String) (rest : List Attempt),
      pyIn "429" (pyLower msg) = false →
      pyIn "too many" (pyLower msg) = false →
      pyIn "rate limit" (pyLower msg) = false →
      connectLoop b (Attempt.failure msg :: rest)
        = ConnectOutcome.raised msg [] b)
    ∧ (∀ (n b : Nat) (msg : String),
      isRateLimitError msg = true →
      ∃ ws : List Nat,
        connectLoop b (List.replicate n (Attempt.failure msg) ++ [Attempt.success])
          = ConnectOutcome.connected ws INITIAL_BACKOFF) := by
  constructor
  · intro b msg rest h1 h2 h3
    have hrl : isRateLimitError msg = false := by
      simp [isRateLimitError, h1, h2, h3]
    simp [connectLoop, hrl]
  · intro n
    induction n with
    | zero =>
      intro b msg _
      exact ⟨[], rfl⟩
    | succ m ih =>
      intro b msg h
      obtain ⟨ws, hws⟩ :=
        ih (min (b * BACKOFF_MULTIPLIER) MAX_BACKOFF) msg h
      refine ⟨b :: ws, ?_⟩
      simp only [List.replicate_succ, List.cons_append, connectLoop, h, if_true,
        List.append_eq]
      rw [hws]

/-- Witness for claim C4: a plain connection error is re-raised at once,
and five rate-limited failures before a success still connect. -/
theorem claim_C4_non_rate_limit_reraise_witness :
    connectLoop 1 (Attempt.failure "Connection refused" :: [])
      = ConnectOutcome.raised "Connection refused" [] 1
    ∧ ∃ ws : List Nat,
        connectLoop 1 (List.replicate 5 (Attempt.failure "HTTP 429")
            ++ [Attempt.success])
          = ConnectOutcome.connected ws INITIAL_BACKOFF :=
  ⟨claim_C4_non_rate_limit_reraise.1 1 "Connection refused" []
      (by decide) (by decide) (by decide),
   claim_C4_non_rate_limit_reraise.2 5 1 "HTTP 429" (by decide)⟩

/-! ### LighterAuth: token cache, request authentication, signing dispatch

The mutable fields of LighterAuth in lighter_auth.py: the nonce counter
(the nonce manager state), the cached auth token and its expiry, plus an
instrumentation counter recording how many times the external
SignerClient create_auth_token_with_expiry call was made (the only
observable effect of requesting a fresh token from the signing
credential).  Wall-clock time (time.time()) is passed explicitly. -/

structure AuthState where
  nonceLast : Int
  authToken : Option String
  authTokenExpiry : Int
  signerCalls : Nat
deriving DecidableEq, Repr

/-- LighterAuth.set_auth_token: store the token and its expiry, computed
as now plus the validity duration. -/
def set_auth_token (s : AuthState) (token : String) (now expirySeconds : Int) :
    AuthState :=
  { s with authToken := some token, authTokenExpiry := now + expirySeconds }

/-- LighterAuth.create_auth_token: always call the SignerClient for a
fresh token (freshToken is the value the SDK returns), cache it, and
return it.  There is no branch consulting the cached token. -/
def create_auth_token (s : AuthState) (freshToken : String)
    (now expirySeconds : Int) : String × AuthState :=
  let s1 := { s with signerCalls := s.signerCalls + 1 }
  (freshToken, set_auth_token s1 freshToken now expirySeconds)

/-- LighterAPIUserStreamDataSource._get_auth_token: unconditionally calls
create_auth_token with a 3600-second expiry. -/
def get_auth_token_user_stream (s : AuthState) (freshToken : String)
    (now : Int) : String × AuthState :=
  create_auth_token s freshToken now 3600

/-- Claim C5 counterexample: with a cached token and now strictly before
its expiry, obtaining a token still requests a fresh one from the
signing credential (the SignerClient call counter increases) and returns
the fresh value, not the cached one. -/
theorem claim_C5_token_cache_cex :
    (50 : Int) < (AuthState.mk 0 (some "cached") 100 0).authTokenExpiry
    ∧ (get_auth_token_user_stream (AuthState.mk 0 (some "cached") 100 0)
        "fresh" 50)
      = ("fresh", AuthState.mk 0 (some "fresh") 3650 1)
    ∧ ("fresh" : String) ≠ "cached" := by
  refine ⟨by norm_num, rfl, by decide⟩

/-- Claim C5 amended: every call that obtains an auth token requests a
fresh token from the signing credential regardless of the cache state,
caches it with expiry now plus ttl, and returns it; the cached token is
never returned in place of a fresh one. -/
theorem claim_C5_token_always_fresh :
    ∀ (s : AuthState) (freshToken : String) (now ttl : Int),
      create_auth_token s freshToken now ttl
        = (freshToken,
            { s with signerCalls := s.signerCalls + 1,
                     authToken := some freshToken,
                     authTokenExpiry := now + ttl }) :=
  fun _ _ _ _ => rfl

/-! ### POST-body signing dispatch

add_auth_to_params_post in lighter_auth.py: draw a nonce, then inspect
the URL and the body keys.  The external SignerClient signing calls are
modelled as distinguishable envelope constructors carrying the body and
the nonce the code hands them; the plain constructor is the unsigned
pass-through branch for non-transaction endpoints.  Body values are an
arbitrary type V (the dispatch only inspects keys). -/

inductive Payload (V : Type) where
  | createOrder (params : List (String × V)) (nonce : Int)
  | cancelOrder (params : List (String × V)) (nonce : Int)
  | cancelAll (params : List (String × V)) (nonce : Int)
  | txWrapper (tx : List (String × V)) (nonce : Int)
  | plain (params : List (String × V))
deriving DecidableEq

/-- The nonce carried by a signed payload, none for the unsigned branch. -/
def payloadNonce {V : Type} : Payload V → Option Int
  | Payload.createOrder _ n => some n
  | Payload.cancelOrder _ n => some n
  | Payload.cancelAll _ n => some n
  | Payload.txWrapper _ n => some n
  | Payload.plain _ => none

/-- The Python test key in dict on a JSON object. -/
def hasKey {V : Type} (params : List (String × V)) (k : String) : Bool :=
  params.any (fun p => p.1 == k)

/-- LighterAuth.get_next_nonce: delegate to the nonce manager. -/
def get_next_nonce (s : AuthState) : Int × AuthState :=
  ((NonceManager.next s.nonceLast).1,
   { s with nonceLast := (NonceManager.next s.nonceLast).2 })

/-- LighterAuth.add_auth_to_params_post: draw a nonce first, then
dispatch on the URL substring tests and the body keys exactly as the
code does (params is None-defaulted to the empty object). -/
def add_auth_to_params_post {V : Type} (s : AuthState)
    (params : Option (List (String × V))) (url : String) :
    Payload V × AuthState :=
  let r := get_next_nonce s
  let requestParams := params.getD []
  let payload :=
    if pyIn "/sendTx" url then
      if hasKey requestParams "market_id" && hasKey requestParams "base_amount" then
        Payload.createOrder requestParams r.1
      else if hasKey requestParams "order_index" then
        Payload.cancelOrder requestParams r.1
      else
        Payload.txWrapper requestParams r.1
    else if pyIn "/sendTxBatch" url then
      Payload.cancelAll requestParams r.1
    else
      Payload.plain requestParams
  (payload, r.2)

/-- Any URL containing /sendTxBatch also contains /sendTx. -/
theorem pyIn_sendTx_of_sendTxBatch (url : String) :
    pyIn "/sendTxBatch" url = true → pyIn "/sendTx" url = true := by
  intro h
  exact containsSub_of_isPrefixOf url.data "/sendTx".data "/sendTxBatch".data
    (by decide) h

/-- Claim C7 (code bug): the URL test for /sendTx also matches every URL
containing /sendTxBatch, so a cancel-all POST to the batch endpoint with
its usual body falls into the default wrapper branch instead of the
cancel-all signing path, which is unreachable. -/
theorem claim_C7_sendTxBatch_dispatch_bug :
    pyIn "/sendTx" "/api/v1/sendTxBatch" = true
    ∧ add_auth_to_params_post (V := String) (AuthState.mk 0 none 0 0)
        (some [("time_in_force", "0")]) "/api/v1/sendTxBatch"
      = (Payload.txWrapper [("time_in_force", "0")] 1, AuthState.mk 1 none 0 0)
    ∧ (∀ (p : List (String × String)) (n : Int),
        (add_auth_to_params_post (V := String) (AuthState.mk 0 none 0 0)
            (some [("time_in_force", "0")]) "/api/v1/sendTxBatch").1
          ≠ Payload.cancelAll p n) := by
  refine ⟨by decide, by decide, ?_⟩
  intro p n hcontra
  have heq : (add_auth_to_params_post (V := String) (AuthState.mk 0 none 0 0)
      (some [("time_in_force", "0")]) "/api/v1/sendTxBatch").1
        = Payload.txWrapper [("time_in_force", "0")] 1 := by decide
  rw [heq] at hcontra
  exact Payload.noConfusion hcontra

/-- Claim C10: every invocation of add_auth_to_params_post advances the
nonce counter by exactly one whatever branch is taken, and the branch
for URLs containing neither /sendTx nor /sendTxBatch returns the body
unsigned, carrying no nonce at all. -/
theorem claim_C10_nonce_consumed_every_call :
    ∀ (V : Type) (s : AuthState) (params : Option (List (String × V)))
      (url : String),
      (add_auth_to_params_post s params url).2
          = { s with nonceLast := s.nonceLast + 1 }
      ∧ (pyIn "/sendTx" url = false →
          (add_auth_to_params_post s params url).1
              = Payload.plain (params.getD [])
          ∧ payloadNonce (add_auth_to_params_post s params url).1 = none) := by
  intro V s params url
  constructor
  · rfl
  · intro hno
    have hbatch : pyIn "/sendTxBatch" url = false := by
      rcases hb : pyIn "/sendTxBatch" url with _ | _
      · rfl
      · exact absurd (pyIn_sendTx_of_sendTxBatch url hb) (by simp [hno])
    constructor
    · simp [add_auth_to_params_post, hno, hbatch]
    · simp [add_auth_to_params_post, hno, hbatch, payloadNonce]

/-- Witness for claim C10 at a non-transaction endpoint. -/
theorem claim_C10_nonce_consumed_every_call_witness :
    (add_auth_to_params_post (V := String) (AuthState.mk 7 none 0 0)
        (some [("market_id", "3")]) "/api/v1/account").2
      = AuthState.mk 8 none 0 0
    ∧ (add_auth_to_params_post (V := String) (AuthState.mk 7 none 0 0)
        (some [("market_id", "3")]) "/api/v1/account").1
      = Payload.plain [("market_id", "3")]
    ∧ payloadNonce (add_auth_to_params_post (V := String)
        (AuthState.mk 7 none 0 0)
        (some [("market_id", "3")]) "/api/v1/account").1 = none := by
  have h := claim_C10_nonce_consumed_every_call String (AuthState.mk 7 none 0 0)
    (some [("market_id", "3")]) "/api/v1/account"
  have h2 := h.2 (by decide)
  exact ⟨h.1, h2.1, h2.2⟩

/-! ### REST and WebSocket request authentication

rest_authenticate and ws_authenticate in lighter_auth.py attach the
Bearer header only when the cached token is truthy (non-empty) and now
is strictly before its expiry; otherwise the request is forwarded
untouched.  Neither function regenerates a token.  POST bodies are then
run through the signing dispatch. -/

inductive RESTMethod where
  | GET
  | POST
  | PUT
  | DELETE
deriving DecidableEq, Repr

structure RESTRequest (V : Type) where
  method : RESTMethod
  url : String
  headers : Option (List (String × String))
  data : Option (List (String × V))
deriving DecidableEq

/-- A REST request after authentication: the body may have become a
signed payload. -/
structure SignedRESTRequest (V : Type) where
  method : RESTMethod
  url : String
  headers : Option (List (String × String))
  data : Option (Payload V)
deriving DecidableEq

structure WSRequest where
  headers : Option (List (String × String))
deriving DecidableEq

/-- Python dict assignment headers[k] = v on an association list. -/
def setHeader (hs : List (String × String)) (k v : String) :
    List (String × String) :=
  if hs.any (fun p => p.1 == k) then
    hs.map (fun p => if p.1 == k then (k, v) else p)
  else
    hs ++ [(k, v)]

/-- The shared header step of rest_authenticate and ws_authenticate:
if the cached token is truthy and unexpired, materialize the headers
dict and set the Authorization Bearer entry; otherwise leave the headers
exactly as they were. -/
def attachAuthHeader (now : Int) (s : AuthState)
    (headers : Option (List (String × String))) :
    Option (List (String × String)) :=
  match s.authToken with
  | some t =>
    if t != "" && decide (now < s.authTokenExpiry) then
      some (setHeader (headers.getD []) "Authorization" ("Bearer " ++ t))
    else
      headers
  | none => headers

/-- LighterAuth.rest_authenticate: header step, then the POST signing
step; non-POST bodies pass through unsigned. -/
def rest_authenticate {V : Type} (now : Int) (s : AuthState)
    (req : RESTRequest V) : SignedRESTRequest V × AuthState :=
  let hs := attachAuthHeader now s req.headers
  if req.method = RESTMethod.POST then
    let r := add_auth_to_params_post s req.data req.url
    (SignedRESTRequest.mk req.method req.url hs (some r.1), r.2)
  else
    (SignedRESTRequest.mk req.method req.url hs (req.data.map Payload.plain), s)

/-- LighterAuth.ws_authenticate: the header step only. -/
def ws_authenticate (now : Int) (s : AuthState) (req : WSRequest) : WSRequest :=
  WSRequest.mk (attachAuthHeader now s req.headers)

/-- Claim C6 counterexample: with a cached token already expired, the
request is forwarded with no Authorization header attached and the auth
state is returned unchanged - no synchronous regeneration happens before
the call proceeds. -/
theorem claim_C6_expiry_regeneration_cex :
    ¬((20 : Int) < (AuthState.mk 0 (some "tok") 10 0).authTokenExpiry)
    ∧ rest_authenticate (V := String) 20 (AuthState.mk 0 (some "tok") 10 0)
        (RESTRequest.mk RESTMethod.GET "/api/v1/account" none none)
      = (SignedRESTRequest.mk RESTMethod.GET "/api/v1/account" none none,
         AuthState.mk 0 (some "tok") 10 0)
    ∧ ws_authenticate 20 (AuthState.mk 0 (some "tok") 10 0) (WSRequest.mk none)
      = WSRequest.mk none := by
  refine ⟨by norm_num, by decide, by decide⟩

/-- Claim C6 amended: the Bearer token is attached exactly when the
cached token is nonempty and now is strictly before its expiry (an
expired token is never attached); when the token is absent, empty or
expired, the headers pass through unchanged and the request proceeds
without an Authorization header; and neither rest_authenticate nor
ws_authenticate regenerates the token - the cached token, its expiry and
the signer-call count are unchanged by both. -/
theorem claim_C6_token_attach_window :
    ∀ (now : Int) (s : AuthState) (hs : Option (List (String × String))),
      (s.authToken = none ∨ s.authToken = some "" ∨ s.authTokenExpiry ≤ now →
        attachAuthHeader now s hs = hs)
      ∧ (∀ t : String, s.authToken = some t → t ≠ "" → now < s.authTokenExpiry →
          attachAuthHeader now s hs
            = some (setHeader (hs.getD []) "Authorization" ("Bearer " ++ t)))
      ∧ (∀ (V : Type) (req : RESTRequest V),
          ((rest_authenticate now s req).1).headers
              = attachAuthHeader now s req.headers
          ∧ ((rest_authenticate now s req).2).authToken = s.authToken
          ∧ ((rest_authenticate now s req).2).authTokenExpiry = s.authTokenExpiry
          ∧ ((rest_authenticate now s req).2).signerCalls = s.signerCalls)
      ∧ (∀ req : WSRequest,
          ws_authenticate now s req
            = WSRequest.mk (attachAuthHeader now s req.headers)) := by
  intro now s hs
  refine ⟨?_, ?_, ?_, fun req => rfl⟩
  · intro h
    unfold attachAuthHeader
    rcases htok : s.authToken with _ | t
    · rfl
    · rcases h with h | h | h
      · rw [htok] at h; exact absurd h (by simp)
      · rw [htok] at h
        have : t = "" := by injection h
        simp [this]
      · have : ¬(now < s.authTokenExpiry) := by omega
        simp [this]
  · intro t htok hne hlt
    unfold attachAuthHeader
    rw [htok]
    simp [hne, hlt]
  · intro V req
    unfold rest_authenticate
    by_cases hm : req.method = RESTMethod.POST
    · rw [if_pos hm]
      exact ⟨rfl, rfl, rfl, rfl⟩
    · rw [if_neg hm]
      exact ⟨rfl, rfl, rfl, rfl⟩

/-- Witness for claim C6 at a live token and at an expired one. -/
theorem claim_C6_token_attach_window_witness :
    attachAuthHeader 5 (AuthState.mk 0 (some "tok") 10 0) none
      = some [("Authorization", "Bearer tok")]
    ∧ attachAuthHeader 20 (AuthState.mk 0 (some "tok") 10 0) none = none
    ∧ ((rest_authenticate (V := String) 20 (AuthState.mk 0 (some "tok") 10 0)
        (RESTRequest.mk RESTMethod.GET "/x" none none)).2).signerCalls = 0 := by
  have h5 := claim_C6_token_attach_window 5 (AuthState.mk 0 (some "tok") 10 0) none
  have h20 := claim_C6_token_attach_window 20 (AuthState.mk 0 (some "tok") 10 0) none
  refine ⟨?_, ?_, ?_⟩
  · have := h5.2.1 "tok" rfl (by decide) (by norm_num)
    simpa [setHeader] using this
  · exact h20.1 (Or.inr (Or.inr (by norm_num)))
  · exact (h20.2.2.1 String (RESTRequest.mk RESTMethod.GET "/x" none none)).2.2.2

/-! ### Inbound order-update processing

_process_order_message in lighter_perpetual_derivative.py: read the
client order id from the update; a falsy id (missing or empty) drops the
update at once; otherwise look the order up among the updatable orders
by client id only; unknown orders are a logged no-op; a found order gets
its exchange order id and its mapped status applied.  The status map
lives in a constants module outside the embedded sources, so it is kept
as a parameter - no claim here depends on its contents. -/

structure TrackedOrder where
  client_order_id : String
  exchange_order_id : Option String
  current_state : String
deriving DecidableEq, Repr

/-- An inbound order update as read by the processor: the client order
id may be absent, the exchange order id and status are read directly. -/
structure OrderUpdateMsg where
  client_order_id : Option String
  order_id : String
  status : String
deriving DecidableEq, Repr

/-- The dict lookup all_updatable_orders.get(client_order_id). -/
def findByClientId (orders : List TrackedOrder) (cid : String) :
    Option TrackedOrder :=
  orders.find? (fun o => o.client_order_id == cid)

/-- _process_order_message of the perpetual connector, as a function on
the list of updatable orders. -/
def process_order_message (statusMap : String → String)
    (orders : List TrackedOrder) (msg : OrderUpdateMsg) : List TrackedOrder :=
  match msg.client_order_id with
  | none => orders
  | some cid =>
    if cid = "" then
      orders
    else
      match findByClientId orders cid with
      | none => orders
      | some _ =>
        orders.map (fun o =>
          if o.client_order_id == cid then
            { o with exchange_order_id := some msg.order_id,
                     current_state := statusMap msg.status }
          else o)

/-- Claim C8 counterexample: an update with no client order id whose
exchange order id matches a tracked order is dropped without touching
the tracker - there is no fallback lookup by exchange order id. -/
theorem claim_C8_exchange_id_fallback_cex :
    process_order_message id [TrackedOrder.mk "A" (some "E7") "OPEN"]
        (OrderUpdateMsg.mk none "E7" "FILLED")
      = [TrackedOrder.mk "A" (some "E7") "OPEN"]
    ∧ ([TrackedOrder.mk "A" (some "E7") "OPEN"].any
        (fun o => o.exchange_order_id == some "E7")) = true
    ∧ ((process_order_message id [TrackedOrder.mk "A" (some "E7") "OPEN"]
        (OrderUpdateMsg.mk none "E7" "FILLED")).map
          (fun o => o.current_state)) ≠ ["FILLED"] := by
  refine ⟨rfl, by decide, by decide⟩

/-- Claim C8 amended: the processor locates the tracked order by client
order id only; an update whose client id is absent or empty is dropped
immediately with no tracker change (and no exchange-order-id fallback),
and an update whose client id matches no tracked order is a logged no-op
that leaves the tracker unchanged. -/
theorem claim_C8_order_lookup_by_client_id_only :
    ∀ (statusMap : String → String) (orders : List TrackedOrder)
      (msg : OrderUpdateMsg),
      (msg.client_order_id = none →
        process_order_message statusMap orders msg = orders)
      ∧ (msg.client_order_id = some "" →
        process_order_message statusMap orders msg = orders)
      ∧ (∀ cid : String, msg.client_order_id = some cid →
          findByClientId orders cid = none →
          process_order_message statusMap orders msg = orders) := by
  intro statusMap orders msg
  refine ⟨?_, ?_, ?_⟩
  · intro h
    unfold process_order_message
    rw [h]
  · intro h
    unfold process_order_message
    rw [h]
    simp
  · intro cid hcid hfind
    unfold process_order_message
    rw [hcid]
    by_cases he : cid = ""
    · simp [he]
    · simp only [he, if_false]
      rw [hfind]

/-- Witness for claim C8 at concrete updates with a missing client id,
an empty client id, and an unknown client id. -/
theorem claim_C8_order_lookup_by_client_id_only_witness :
    process_order_message id [TrackedOrder.mk "A" none "OPEN"]
        (OrderUpdateMsg.mk none "E1" "FILLED")
      = [TrackedOrder.mk "A" none "OPEN"]
    ∧ process_order_message id [TrackedOrder.mk "A" none "OPEN"]
        (OrderUpdateMsg.mk (some "") "E1" "FILLED")
      = [TrackedOrder.mk "A" none "OPEN"]
    ∧ process_order_message id [TrackedOrder.mk "A" none "OPEN"]
        (OrderUpdateMsg.mk (some "B") "E1" "FILLED")
      = [TrackedOrder.mk "A" none "OPEN"] :=
  ⟨(claim_C8_order_lookup_by_client_id_only id [TrackedOrder.mk "A" none "OPEN"]
      (OrderUpdateMsg.mk none "E1" "FILLED")).1 rfl,
   (claim_C8_order_lookup_by_client_id_only id [TrackedOrder.mk "A" none "OPEN"]
      (OrderUpdateMsg.mk (some "") "E1" "FILLED")).2.1 rfl,
   (claim_C8_order_lookup_by_client_id_only id [TrackedOrder.mk "A" none "OPEN"]
      (OrderUpdateMsg.mk (some "B") "E1" "FILLED")).2.2 "B" rfl (by decide)⟩


/-! ### The channel-subscription ceiling

_subscribe_channels in lighter_api_order_book_data_source.py: for each
trading pair, first compare the running subscription count against
WS_MAX_SUBSCRIPTIONS and stop (logging a warning) once it is reached;
otherwise await the trades subscribe send, increment the count, await
the order-book subscribe send, increment the count again.  Each awaited
send can raise, in which case the except clause logs and re-raises with
the count keeping the increments already made - so a failure of the
second send of a pair leaves the count odd.  The count starts at 0 in
the constructor, is touched nowhere else, and persists across
invocations on the same data source (reconnects).  Sends are scripted by
a function from the send index within the invocation to success. -/

/-- WS_MAX_SUBSCRIPTIONS from lighter_constants.py. -/
def WS_MAX_SUBSCRIPTIONS : Nat := 1000

/-- Outcome of one _subscribe_channels invocation: the final running
count, the number of subscribe messages this invocation sent, and
whether a send raised (the exception propagates after logging). -/
structure SubscribeResult where
  count : Nat
  sent : Nat
  aborted : Bool
deriving DecidableEq, Repr

/-- The subscription loop of _subscribe_channels: running count, index
of the next send in this invocation, the send script, and the trading
pair list. -/
def subscribeChannels (count idx : Nat) (ok : Nat → Bool) :
    List String → SubscribeResult
  | [] => SubscribeResult.mk count 0 false
  | _ :: pairs =>
    if count ≥ WS_MAX_SUBSCRIPTIONS then
      SubscribeResult.mk count 0 false
    else if ok idx then
      if ok (idx + 1) then
        let r := subscribeChannels (count + 2) (idx + 2) ok pairs
        SubscribeResult.mk r.count (r.sent + 2) r.aborted
      else
        SubscribeResult.mk (count + 1) 1 true
    else
      SubscribeResult.mk count 0 true

set_option maxRecDepth 100000 in
/-- Claim C9 counterexample: on a fresh data source, an invocation over
500 pairs whose 1000th send raises leaves the count at the odd value
999; a reconnect invocation over one pair then passes the pre-check at
999 and sends two messages, the second after the count has reached the
ceiling, for a lifetime total of 1001 subscribe messages - one past
WS_MAX_SUBSCRIPTIONS. -/
theorem claim_C9_subscription_ceiling_cex :
    subscribeChannels 0 0 (fun i => !(i == 999)) (List.replicate 500 "P")
      = SubscribeResult.mk 999 999 true
    ∧ subscribeChannels 999 0 (fun _ => true) ["P"]
      = SubscribeResult.mk 1001 2 false
    ∧ (subscribeChannels 0 0 (fun i => !(i == 999))
          (List.replicate 500 "P")).sent
        + (subscribeChannels 999 0 (fun _ => true) ["P"]).sent
      > WS_MAX_SUBSCRIPTIONS
    ∧ (subscribeChannels 999 0 (fun _ => true) ["P"]).count
      > WS_MAX_SUBSCRIPTIONS := by
  refine ⟨by decide, by decide, by decide, by decide⟩

/-- Claim C9 amended: the loop admits no trading pair once the running
count has reached WS_MAX_SUBSCRIPTIONS (such an invocation sends
nothing), and the count always equals the entry count plus the messages
sent, so the lifetime count - hence the lifetime total of subscribe
messages - never exceeds WS_MAX_SUBSCRIPTIONS + 1; it stays within
WS_MAX_SUBSCRIPTIONS itself for every invocation entered with an even
count (as any failure-free history produces, evenness being preserved by
non-aborted invocations), and can pass the ceiling by exactly one
message only after a second-send failure has left the count odd. -/
theorem claim_C9_subscription_ceiling_amended :
    ∀ (pairs : List String) (count idx : Nat) (ok : Nat → Bool),
      (subscribeChannels count idx ok pairs).count
          = count + (subscribeChannels count idx ok pairs).sent
      ∧ (count ≤ WS_MAX_SUBSCRIPTIONS + 1 →
          (subscribeChannels count idx ok pairs).count
            ≤ WS_MAX_SUBSCRIPTIONS + 1)
      ∧ (count % 2 = 0 → count ≤ WS_MAX_SUBSCRIPTIONS →
          (subscribeChannels count idx ok pairs).count
            ≤ WS_MAX_SUBSCRIPTIONS)
      ∧ (count % 2 = 0 →
          (subscribeChannels count idx ok pairs).aborted = false →
          (subscribeChannels count idx ok pairs).count % 2 = 0)
      ∧ (WS_MAX_SUBSCRIPTIONS ≤ count →
          (subscribeChannels count idx ok pairs).count = count
          ∧ (subscribeChannels count idx ok pairs).sent = 0) := by
  intro pairs
  induction pairs with
  | nil =>
    intro count idx ok
    exact ⟨rfl, fun h => h, fun _ h => h, fun hev _ => hev, fun _ => ⟨rfl, rfl⟩⟩
  | cons p rest ih =>
    intro count idx ok
    have hWS : WS_MAX_SUBSCRIPTIONS = 1000 := rfl
    by_cases hc : WS_MAX_SUBSCRIPTIONS ≤ count
    · have hval : subscribeChannels count idx ok (p :: rest)
          = SubscribeResult.mk count 0 false := by
        conv_lhs => unfold subscribeChannels
        rw [if_pos hc]
      rw [hval]
      exact ⟨rfl, fun h => h, fun _ h => h, fun hev _ => hev, fun _ => ⟨rfl, rfl⟩⟩
    · by_cases h1 : ok idx = true
      · by_cases h2 : ok (idx + 1) = true
        · have hr := ih (count + 2) (idx + 2) ok
          have hrc := hr.1
          have hrb := hr.2.1
          have hrceil := hr.2.2.1
          have hrpar := hr.2.2.2.1
          have hval : subscribeChannels count idx ok (p :: rest)
              = SubscribeResult.mk
                  (subscribeChannels (count + 2) (idx + 2) ok rest).count
                  ((subscribeChannels (count + 2) (idx + 2) ok rest).sent + 2)
                  (subscribeChannels (count + 2) (idx + 2) ok rest).aborted := by
            conv_lhs => unfold subscribeChannels
            rw [if_neg hc, if_pos h1, if_pos h2]
          rw [hval]
          refine ⟨?_, ?_, ?_, ?_, fun h => absurd h hc⟩
          · show (subscribeChannels (count + 2) (idx + 2) ok rest).count
                = count
                  + ((subscribeChannels (count + 2) (idx + 2) ok rest).sent + 2)
            omega
          · intro h
            show (subscribeChannels (count + 2) (idx + 2) ok rest).count
                ≤ WS_MAX_SUBSCRIPTIONS + 1
            exact hrb (by omega)
          · intro hev hle
            show (subscribeChannels (count + 2) (idx + 2) ok rest).count
                ≤ WS_MAX_SUBSCRIPTIONS
            exact hrceil (by omega) (by omega)
          · intro hev hab
            show (subscribeChannels (count + 2) (idx + 2) ok rest).count % 2 = 0
            exact hrpar (by omega) hab
        · have hval : subscribeChannels count idx ok (p :: rest)
              = SubscribeResult.mk (count + 1) 1 true := by
            conv_lhs => unfold subscribeChannels
            rw [if_neg hc, if_pos h1, if_neg h2]
          rw [hval]
          refine ⟨rfl, ?_, ?_, ?_, fun h => absurd h hc⟩
          · intro h
            show count + 1 ≤ WS_MAX_SUBSCRIPTIONS + 1
            omega
          · intro hev hle
            show count + 1 ≤ WS_MAX_SUBSCRIPTIONS
            omega
          · intro hev hab
            exact Bool.noConfusion hab
      · have hval : subscribeChannels count idx ok (p :: rest)
            = SubscribeResult.mk count 0 true := by
          conv_lhs => unfold subscribeChannels
          rw [if_neg hc, if_neg h1]
        rw [hval]
        refine ⟨rfl, fun h => h, fun _ h => h, ?_, fun h => absurd h hc⟩
        intro hev hab
        exact Bool.noConfusion hab

/-- Witness for claim C9 at a fresh counter over two pairs with all
sends succeeding, and at a counter already at the ceiling. -/
theorem claim_C9_subscription_ceiling_amended_witness :
    (subscribeChannels 0 0 (fun _ => true) ["BTC-USDC", "ETH-USDC"]).count
        = 0 + (subscribeChannels 0 0 (fun _ => true)
            ["BTC-USDC", "ETH-USDC"]).sent
    ∧ (subscribeChannels 0 0 (fun _ => true) ["BTC-USDC", "ETH-USDC"]).count
        ≤ WS_MAX_SUBSCRIPTIONS + 1
    ∧ (subscribeChannels 0 0 (fun _ => true) ["BTC-USDC", "ETH-USDC"]).count
        ≤ WS_MAX_SUBSCRIPTIONS
    ∧ (subscribeChannels 0 0 (fun _ => true) ["BTC-USDC", "ETH-USDC"]).count
        % 2 = 0
    ∧ (subscribeChannels 1000 0 (fun _ => true) ["BTC-USDC"]).count = 1000
    ∧ (subscribeChannels 1000 0 (fun _ => true) ["BTC-USDC"]).sent = 0 := by
  have h0 := claim_C9_subscription_ceiling_amended ["BTC-USDC", "ETH-USDC"]
    0 0 (fun _ => true)
  have h1000 := claim_C9_subscription_ceiling_amended ["BTC-USDC"]
    1000 0 (fun _ => true)
  have hab : (subscribeChannels 0 0 (fun _ => true)
      ["BTC-USDC", "ETH-USDC"]).aborted = false := by decide
  have hcap := h1000.2.2.2.2 (by decide)
  exact ⟨h0.1, h0.2.1 (by decide), h0.2.2.1 (by decide) (by decide),
    h0.2.2.2.1 (by decide) hab, hcap.1, hcap.2⟩

end Lighter
